import Mathlib

/-!
Verification of the e-commerce dashboard (`dashboard/main.py`).

The script loads an order dataset, filters it by an approval-date range chosen
in the sidebar, derives five aggregate tables through `DataAnalyzer` (from
`func.py`, which is not part of the sources here: those five methods are
modelled from the specification, as marked on each definition), and renders
metrics and charts from the tables.

Modelling choices:
* a pandas `Timestamp` is a pair (day, sec): the calendar day plus the
  time-of-day within that day; `str(date)` parses to midnight of that day,
  which is how pandas compares a datetime column against a date string;
* a dataframe is a `List` of records in row order;
* `Series.value_counts()` produces (key, count) pairs, keys in
  first-occurrence order, then stably sorted by count descending;
* `Series.idxmax()` returns the first index attaining the maximal value and
  raises on an empty series, modelled by an `Option` result (`none` = raise);
  likewise `.index[0]` on an empty index is `none`;
* prices are integers (cent amounts); review scores and dates are `Nat`.
-/

namespace EcommDash

/-- Timestamp with calendar day and seconds-within-day, ordered lexicographically. -/
structure Timestamp where
  day : Nat
  sec : Nat
deriving DecidableEq, Repr

/-- Lexicographic order on timestamps, as pandas compares datetimes. -/
def Timestamp.le (a b : Timestamp) : Bool :=
  a.day < b.day || (a.day == b.day && a.sec ≤ b.sec)

/-- Midnight of a calendar day: what `str(date)` parses to in a datetime comparison. -/
def midnight (d : Nat) : Timestamp :=
  ⟨d, 0⟩

/-- One row of the merged order dataset `all_data.csv` (the columns the claims touch). -/
structure Order where
  order_approved_at : Timestamp
  price : Int
  review_score : Nat
  product_category : String
  customer_state : String
  order_status : String
deriving DecidableEq, Repr

/-- One row of `geolocation.csv` (latitude/longitude as scaled integers). -/
structure Geo where
  customer_unique_id : String
  geolocation_lat : Int
  geolocation_lng : Int
deriving DecidableEq, Repr

/-- The date filter of `main.py` lines 52-53:
`all_df[(all_df["order_approved_at"] >= str(start_date)) & (all_df["order_approved_at"] <= str(end_date))]`.
Both bounds are the midnight instants of the chosen dates. -/
def main_df (all_df : List Order) (start_date end_date : Nat) : List Order :=
  all_df.filter fun o =>
    Timestamp.le (midnight start_date) o.order_approved_at &&
    Timestamp.le o.order_approved_at (midnight end_date)

/-- Worker for `drop_duplicates`: keep a row only when its customer id was not seen yet. -/
def dropDupGo : List Geo → List String → List Geo
  | [], _ => []
  | g :: gs, seen =>
    if g.customer_unique_id ∈ seen then dropDupGo gs seen
    else g :: dropDupGo gs (g.customer_unique_id :: seen)

/-- `geolocation.drop_duplicates(subset='customer_unique_id')` of `main.py` line 34:
keeps the first occurrence per customer id. -/
def drop_duplicates (l : List Geo) : List Geo :=
  dropDupGo l []

/-- Distinct elements of a list in first-occurrence order (the key order a pandas
hashtable produces). -/
def uniqueKeys {α : Type _} [DecidableEq α] : List α → List α
  | [] => []
  | x :: xs => x :: (uniqueKeys xs).filter fun y => y ≠ x

/-- Insert into a sorted list: place the new element before the first entry it
beats under `lt`, hence after all earlier ties (stable). -/
def insertSorted {α : Type _} (lt : α → α → Bool) (p : α) : List α → List α
  | [] => [p]
  | q :: qs => if lt p q then p :: q :: qs else q :: insertSorted lt p qs

/-- Stable insertion sort by repeated `insertSorted`, left to right. -/
def foldSort {α : Type _} (lt : α → α → Bool) (l : List α) : List α :=
  l.foldl (fun acc p => insertSorted lt p acc) []

/-- `Series.value_counts()`: count each distinct value, keys in first-occurrence
order, then sort by count descending (ties keep first-occurrence order). -/
def value_counts {α : Type _} [DecidableEq α] (l : List α) : List (α × Nat) :=
  foldSort (fun p q => q.2 < p.2) ((uniqueKeys l).map fun k => (k, l.count k))

/-- `Series.idxmax()`: first index attaining the maximal value; `none` models the
`ValueError` pandas raises on an empty series. -/
def idxmax {α : Type _} (l : List (α × Nat)) : Option α :=
  match l with
  | [] => none
  | p :: ps => some (ps.foldl (fun best q => if best.2 < q.2 then q else best) p).1

/-- `Series.mean()` over the values of a (index, value) series; `none` models the
`NaN` pandas produces on an empty series. -/
def seriesMean {α : Type _} (s : List (α × Nat)) : Option ℚ :=
  if s.length = 0 then none
  else some ((s.map fun p => (p.2 : ℚ)).sum / (s.length : ℚ))

/-- One row of the daily-orders table: date, order count, revenue sum. -/
structure DailyRow where
  date : Nat
  order_count : Nat
  revenue : Int
deriving DecidableEq, Repr

/-- Modelled from the spec: `dailyOrders()` of `DataAnalyzer` (`func.py` is
absent from the sources): group by the calendar date of the order-approval
timestamp; output an ordered-by-date sequence of (date, order_count, revenue). -/
def create_daily_orders_df (df : List Order) : List DailyRow :=
  (foldSort (fun a b => a < b)
      (uniqueKeys (df.map fun o => o.order_approved_at.day))).map fun d =>
    { date := d
      order_count := (df.map fun o => o.order_approved_at.day).count d
      revenue := ((df.filter fun o => o.order_approved_at.day == d).map fun o => o.price).sum }

/-- `daily_orders_df["order_count"].sum()` of `main.py` line 74, the displayed
Total Orders metric. -/
def total_order (daily : List DailyRow) : Nat :=
  (daily.map fun r => r.order_count).sum

/-- Modelled from the spec: `sumOrderItems()` of `DataAnalyzer` (`func.py` is
absent from the sources): group item records by product category, output
(category, total_quantity) sorted descending by quantity; the spec flags the
original tie order as undefined, here ties keep first-occurrence order. -/
def create_sum_order_items_df (df : List Order) : List (String × Nat) :=
  value_counts (df.map fun o => o.product_category)

/-- Modelled from the spec: `reviewScoreDistribution()` of `DataAnalyzer`
(`func.py` is absent from the sources): the frequency count of review scores
plus the mode (most frequent score, ties broken by first-encountered order). -/
def review_score_df (df : List Order) : List (Nat × Nat) × Option Nat :=
  (value_counts (df.map fun o => o.review_score),
    idxmax (value_counts (df.map fun o => o.review_score)))

/-- Modelled from the spec: `customersByState()` of `DataAnalyzer` (`func.py`
is absent from the sources): the frequency count of customer state codes plus
the modal state. -/
def create_bystate_df (df : List Order) : List (String × Nat) × Option String :=
  (value_counts (df.map fun o => o.customer_state),
    idxmax (value_counts (df.map fun o => o.customer_state)))

/-- Modelled from the spec: `orderStatusDistribution()` of `DataAnalyzer`
(`func.py` is absent from the sources): the frequency count of order status
values plus the modal status. -/
def create_order_status (df : List Order) : List (String × Nat) × Option String :=
  (value_counts (df.map fun o => o.order_status),
    idxmax (value_counts (df.map fun o => o.order_status)))

/-- `review_score.mean()` of `main.py` line 82, the displayed Avg. Review Score
metric: the mean of the values of the frequency table, i.e. of the counts. -/
def avg_review_score (review_score : List (Nat × Nat)) : Option ℚ :=
  seriesMean review_score

/-- `sum_order_items_df["product_count"].mean()` of `main.py` line 120, the
displayed Avg. Items per Order metric. -/
def avg_items (sum_order_items_df : List (String × Nat)) : Option ℚ :=
  seriesMean sum_order_items_df

/-- `review_score.value_counts().idxmax()` of `main.py` line 146, the displayed
Most Common Review Score: `value_counts` here runs over the VALUES of the
frequency table, i.e. over the counts, not over the scores. -/
def most_common_review_score (review_score : List (Nat × Nat)) : Option Nat :=
  idxmax (value_counts (review_score.map Prod.snd))

/-- `state.customer_state.value_counts().index[0]` of `main.py` line 166, the
displayed Most Common State; `none` models the `IndexError` on an empty index. -/
def most_common_state (state : List (String × Nat)) : Option String :=
  ((value_counts (state.map Prod.fst)).map Prod.fst).head?

/-- `order_status.value_counts().index[0]` of `main.py` line 183, the displayed
Most Common Order Status: `value_counts` runs over the counts of the status
frequency table; `none` models the `IndexError` on an empty index. -/
def common_status_displayed (order_status : List (String × Nat)) : Option Nat :=
  ((value_counts (order_status.map Prod.snd)).map Prod.fst).head?

/-- The rendering steps of `main.py` that can raise on an empty filtered set
(line 146 `idxmax()` on an empty series, lines 166 and 183 `.index[0]` on an
empty index); `none` models the raised exception aborting the dashboard. -/
def run_dashboard (all_df : List Order) (s e : Nat) : Option (Nat × String × Nat) :=
  match most_common_review_score (review_score_df (main_df all_df s e)).1,
      most_common_state (create_bystate_df (main_df all_df s e)).1,
      common_status_displayed (create_order_status (main_df all_df s e)).1 with
  | some a, some b, some c => some (a, b, c)
  | _, _, _ => none

/-- The five derived aggregate tables of `main.py` lines 60-64, as one tuple. -/
def dashboard_tables (all_df : List Order) (s e : Nat) :
    List DailyRow × List (String × Nat) × (List (Nat × Nat) × Option Nat) ×
      (List (String × Nat) × Option String) × (List (String × Nat) × Option String) :=
  (create_daily_orders_df (main_df all_df s e),
    create_sum_order_items_df (main_df all_df s e),
    review_score_df (main_df all_df s e),
    create_bystate_df (main_df all_df s e),
    create_order_status (main_df all_df s e))

/-- Following the words of claim C3 (not a definition from the source): the
arithmetic mean of the review scores of the filtered orders. -/
def claimed_avg_review_score (df : List Order) : Option ℚ :=
  if df.length = 0 then none
  else some ((df.map fun o => (o.review_score : ℚ)).sum / (df.length : ℚ))

/-- Helper building a concrete order row approved at midnight of the given day. -/
def mkOrder (day score : Nat) (cat state : String) : Order :=
  { order_approved_at := ⟨day, 0⟩
    price := 10
    review_score := score
    product_category := cat
    customer_state := state
    order_status := "delivered" }

/-- Concrete dataset with review scores [5, 5, 4]. -/
def dfThreeScores : List Order :=
  [mkOrder 1 5 "bed_bath_table" "SP", mkOrder 1 5 "bed_bath_table" "SP",
    mkOrder 2 4 "toys" "RJ"]

/-- Concrete dataset with review scores [5, 5, 5, 4]. -/
def dfFourScores : List Order :=
  [mkOrder 1 5 "bed_bath_table" "SP", mkOrder 1 5 "bed_bath_table" "SP",
    mkOrder 2 5 "toys" "RJ", mkOrder 2 4 "toys" "RJ"]

/-- Concrete dataset with a single order approved on day 5. -/
def dfDayFive : List Order :=
  [mkOrder 5 5 "toys" "SP"]

/-! ### Claim C1: the date filter -/

/-- A concrete order approved on day 2 at one second past midnight. -/
def lateOrder : Order :=
  { order_approved_at := ⟨2, 1⟩
    price := 10
    review_score := 5
    product_category := "bed_bath_table"
    customer_state := "SP"
    order_status := "delivered" }

/-- C1: counterexample. With the range [day 1, day 2], an order approved on
end_date day 2 at 00:00:01 is NOT in the filtered working set, refuting the
claim that every order approved at any time of day on end_date is included. -/
theorem main_df_drops_end_day_order :
    main_df [lateOrder] 1 2 = [] ∧ lateOrder.order_approved_at.day = 2 ∧ 1 ≤ 2 := by
  refine ⟨rfl, rfl, by decide⟩

/-- C1 (amended): the filtered working set contains exactly the rows of `all_df`
whose approval timestamp lies in [midnight start_date, midnight end_date]: every
record of any day strictly between the bounds and of any time on start_date is
kept, but on end_date only a record approved exactly at midnight is kept. -/
theorem main_df_mem_characterization (all_df : List Order) (s e : Nat) (o : Order) :
    o ∈ main_df all_df s e ↔
      o ∈ all_df ∧ s ≤ o.order_approved_at.day ∧
        (o.order_approved_at.day < e ∨
          (o.order_approved_at.day = e ∧ o.order_approved_at.sec = 0)) := by
  unfold main_df
  rw [List.mem_filter]
  constructor
  · rintro ⟨hmem, hcond⟩
    rw [Bool.and_eq_true] at hcond
    obtain ⟨h1, h2⟩ := hcond
    unfold Timestamp.le midnight at h1 h2
    simp only [Bool.or_eq_true, Bool.and_eq_true, decide_eq_true_eq, beq_iff_eq] at h1 h2
    refine ⟨hmem, ?_, ?_⟩
    · rcases h1 with h | ⟨h, _⟩
      · exact Nat.le_of_lt h
      · exact Nat.le_of_eq h
    · rcases h2 with h | ⟨h, h0⟩
      · exact Or.inl h
      · exact Or.inr ⟨h, Nat.le_zero.mp h0⟩
  · rintro ⟨hmem, hs, he⟩
    refine ⟨hmem, ?_⟩
    rw [Bool.and_eq_true]
    unfold Timestamp.le midnight
    simp only [Bool.or_eq_true, Bool.and_eq_true, decide_eq_true_eq, beq_iff_eq]
    constructor
    · rcases Nat.lt_or_ge s o.order_approved_at.day with h | h
      · exact Or.inl h
      · exact Or.inr ⟨Nat.le_antisymm hs h, Nat.zero_le _⟩
    · rcases he with h | ⟨h, h0⟩
      · exact Or.inl h
      · exact Or.inr ⟨h, by omega⟩

/-! ### Generic lemmas about `uniqueKeys`, `insertSorted`, `foldSort`, `value_counts` -/

theorem insertSorted_perm {α : Type _} (lt : α → α → Bool) (p : α) (l : List α) :
    (insertSorted lt p l).Perm (p :: l) := by
  induction l with
  | nil => exact List.Perm.refl _
  | cons q qs ih =>
    rw [insertSorted]
    by_cases h : lt p q = true
    · rw [if_pos h]
    · rw [if_neg h]
      exact (ih.cons q).trans (List.Perm.swap p q qs)

theorem foldSort_go_perm {α : Type _} (lt : α → α → Bool) :
    ∀ (l acc : List α),
      (l.foldl (fun acc p => insertSorted lt p acc) acc).Perm (acc ++ l) := by
  intro l
  induction l with
  | nil => intro acc; simp
  | cons p xs ih =>
    intro acc
    rw [List.foldl_cons]
    refine (ih (insertSorted lt p acc)).trans ?_
    refine (((insertSorted_perm lt p acc).append_right xs).trans ?_)
    exact (List.perm_middle).symm

theorem foldSort_perm {α : Type _} (lt : α → α → Bool) (l : List α) :
    (foldSort lt l).Perm l := by
  simpa using foldSort_go_perm lt l []

theorem insertSorted_pairwise {α : Type _} (lt : α → α → Bool) (R : α → α → Prop)
    (hTrans : ∀ a b c, R a b → R b c → R a c)
    (hTrue : ∀ a b, lt a b = true → R a b)
    (hFalse : ∀ a b, lt a b = false → R b a)
    (p : α) (l : List α) (hl : l.Pairwise R) : (insertSorted lt p l).Pairwise R := by
  induction l with
  | nil => simp [insertSorted]
  | cons q qs ih =>
    rw [insertSorted]
    rcases List.pairwise_cons.mp hl with ⟨hq, hqs⟩
    by_cases h : lt p q = true
    · rw [if_pos h]
      refine List.Pairwise.cons ?_ hl
      intro y hy
      rcases List.mem_cons.mp hy with rfl | hy2
      · exact hTrue p y h
      · exact hTrans p q y (hTrue p q h) (hq y hy2)
    · rw [if_neg h]
      have hf : lt p q = false := by revert h; cases lt p q <;> simp
      refine List.Pairwise.cons ?_ (ih hqs)
      intro y hy
      have hmem : y ∈ p :: qs := (insertSorted_perm lt p qs).mem_iff.mp hy
      rcases List.mem_cons.mp hmem with rfl | hy2
      · exact hFalse y q hf
      · exact hq y hy2

theorem foldSort_go_pairwise {α : Type _} (lt : α → α → Bool) (R : α → α → Prop)
    (hTrans : ∀ a b c, R a b → R b c → R a c)
    (hTrue : ∀ a b, lt a b = true → R a b)
    (hFalse : ∀ a b, lt a b = false → R b a) :
    ∀ (l acc : List α), acc.Pairwise R →
      (l.foldl (fun acc p => insertSorted lt p acc) acc).Pairwise R := by
  intro l
  induction l with
  | nil => intro acc hacc; exact hacc
  | cons p xs ih =>
    intro acc hacc
    rw [List.foldl_cons]
    exact ih _ (insertSorted_pairwise lt R hTrans hTrue hFalse p acc hacc)

theorem foldSort_pairwise {α : Type _} (lt : α → α → Bool) (R : α → α → Prop)
    (hTrans : ∀ a b c, R a b → R b c → R a c)
    (hTrue : ∀ a b, lt a b = true → R a b)
    (hFalse : ∀ a b, lt a b = false → R b a)
    (l : List α) : (foldSort lt l).Pairwise R :=
  foldSort_go_pairwise lt R hTrans hTrue hFalse l [] (List.Pairwise.nil)

theorem insertSorted_eq_append {α : Type _} (lt : α → α → Bool) (p : α) :
    ∀ (l : List α), (∀ q ∈ l, lt p q = false) → insertSorted lt p l = l ++ [p] := by
  intro l
  induction l with
  | nil => intro _; rfl
  | cons q qs ih =>
    intro h
    rw [insertSorted, if_neg (by rw [h q (List.mem_cons_self q qs)]; exact Bool.false_ne_true)]
    rw [ih fun r hr => h r (List.mem_cons_of_mem q hr)]
    rfl

theorem foldSort_go_eq {α : Type _} (lt : α → α → Bool) :
    ∀ (l acc : List α),
      (∀ p ∈ l, ∀ q ∈ acc, lt p q = false) → (∀ p ∈ l, ∀ q ∈ l, lt p q = false) →
      l.foldl (fun acc p => insertSorted lt p acc) acc = acc ++ l := by
  intro l
  induction l with
  | nil => intro acc _ _; simp
  | cons p xs ih =>
    intro acc hacc hl
    rw [List.foldl_cons,
      insertSorted_eq_append lt p acc (hacc p (List.mem_cons_self p xs))]
    rw [ih (acc ++ [p])
      (by
        intro r hr q hq
        rcases List.mem_append.mp hq with hq1 | hq1
        · exact hacc r (List.mem_cons_of_mem p hr) q hq1
        · have hq2 : q = p := List.mem_singleton.mp hq1
          rw [hq2]
          exact hl r (List.mem_cons_of_mem p hr) p (List.mem_cons_self p xs))
      (by
        intro r hr q hq
        exact hl r (List.mem_cons_of_mem p hr) q (List.mem_cons_of_mem p hq))]
    rw [List.append_assoc]
    rfl

theorem foldSort_eq_self {α : Type _} (lt : α → α → Bool) (l : List α)
    (h : ∀ p ∈ l, ∀ q ∈ l, lt p q = false) : foldSort lt l = l := by
  simpa using foldSort_go_eq lt l [] (by simp) h

theorem mem_uniqueKeys {α : Type _} [DecidableEq α] (a : α) :
    ∀ l : List α, a ∈ uniqueKeys l ↔ a ∈ l := by
  intro l
  induction l with
  | nil => simp [uniqueKeys]
  | cons x xs ih =>
    simp only [uniqueKeys, List.mem_cons, List.mem_filter, ih, decide_eq_true_eq, ne_eq]
    by_cases h : a = x
    · simp [h]
    · simp [h]

theorem nodup_uniqueKeys {α : Type _} [DecidableEq α] :
    ∀ l : List α, (uniqueKeys l).Nodup := by
  intro l
  induction l with
  | nil => simp [uniqueKeys]
  | cons x xs ih =>
    rw [uniqueKeys, List.nodup_cons]
    refine ⟨?_, List.Nodup.filter _ ih⟩
    intro hmem
    rw [List.mem_filter] at hmem
    simp at hmem

theorem uniqueKeys_eq_self {α : Type _} [DecidableEq α] :
    ∀ l : List α, l.Nodup → uniqueKeys l = l := by
  intro l
  induction l with
  | nil => intro _; rfl
  | cons x xs ih =>
    intro hnd
    rcases List.nodup_cons.mp hnd with ⟨hx, hxs⟩
    rw [uniqueKeys, ih hxs]
    congr 1
    rw [List.filter_eq_self]
    intro y hy
    simp only [decide_eq_true_eq, ne_eq]
    intro hEq
    exact hx (hEq ▸ hy)

theorem uniqueKeys_ne_nil {α : Type _} [DecidableEq α] (l : List α) (h : l ≠ []) :
    uniqueKeys l ≠ [] := by
  cases l with
  | nil => exact absurd rfl h
  | cons x xs => simp [uniqueKeys]

theorem sum_map_ite_zero {α : Type _} [DecidableEq α] (a : α) :
    ∀ keys : List α, a ∉ keys →
      (keys.map fun k => if k = a then 1 else 0).sum = 0 := by
  intro keys
  induction keys with
  | nil => intro _; rfl
  | cons k ks ih =>
    intro h
    rw [List.map_cons, List.sum_cons,
      if_neg (fun hEq => h (List.mem_cons.mpr (Or.inl hEq.symm))),
      ih fun hmem => h (List.mem_cons_of_mem k hmem)]

theorem sum_map_ite_one {α : Type _} [DecidableEq α] (a : α) :
    ∀ keys : List α, keys.Nodup → a ∈ keys →
      (keys.map fun k => if k = a then 1 else 0).sum = 1 := by
  intro keys
  induction keys with
  | nil => intro _ h; simp at h
  | cons k ks ih =>
    intro hnd hmem
    rcases List.nodup_cons.mp hnd with ⟨hk, hks⟩
    rw [List.map_cons, List.sum_cons]
    rcases List.mem_cons.mp hmem with rfl | hmem2
    · rw [if_pos rfl, sum_map_ite_zero a ks hk]
    · rw [if_neg (fun hEq => hk (by rw [hEq]; exact hmem2)), ih hks hmem2]

theorem sum_map_add_nat {α : Type _} (f g : α → Nat) :
    ∀ l : List α, (l.map fun x => f x + g x).sum = (l.map f).sum + (l.map g).sum := by
  intro l
  induction l with
  | nil => rfl
  | cons x xs ih =>
    simp only [List.map_cons, List.sum_cons, ih]
    omega

theorem sum_map_count {α : Type _} [DecidableEq α] :
    ∀ (l keys : List α), keys.Nodup → (∀ b ∈ l, b ∈ keys) →
      (keys.map fun k => l.count k).sum = l.length := by
  intro l
  induction l with
  | nil =>
    intro keys _ _
    simp
  | cons a l ih =>
    intro keys hnd hcov
    have hrw : (keys.map fun k => (a :: l).count k) =
        keys.map fun k => l.count k + if k = a then 1 else 0 := by
      refine List.map_congr_left ?_
      intro k _
      rw [List.count_cons]
      congr 1
      by_cases h : k = a
      · rw [if_pos (by rw [h]; exact beq_self_eq_true a), if_pos h]
      · rw [if_neg (by simp [Ne.symm h]), if_neg h]
    rw [hrw, sum_map_add_nat, ih keys hnd (fun b hb => hcov b (List.mem_cons_of_mem a hb)),
      sum_map_ite_one a keys hnd (hcov a (List.mem_cons_self a l)), List.length_cons]

theorem sum_count_uniqueKeys {α : Type _} [DecidableEq α] (l : List α) :
    ((uniqueKeys l).map fun k => l.count k).sum = l.length :=
  sum_map_count l (uniqueKeys l) (nodup_uniqueKeys l) fun b hb => (mem_uniqueKeys b l).mpr hb

theorem value_counts_perm {α : Type _} [DecidableEq α] (l : List α) :
    (value_counts l).Perm ((uniqueKeys l).map fun k => (k, l.count k)) :=
  foldSort_perm _ _

theorem value_counts_sorted {α : Type _} [DecidableEq α] (l : List α) :
    (value_counts l).Pairwise fun a b => b.2 ≤ a.2 := by
  refine foldSort_pairwise _ _ ?_ ?_ ?_ _
  · intro a b c h1 h2
    omega
  · intro a b h
    have := of_decide_eq_true h
    omega
  · intro a b h
    have := of_decide_eq_false h
    omega

theorem value_counts_of_nodup {α : Type _} [DecidableEq α] (l : List α) (h : l.Nodup) :
    value_counts l = l.map fun k => (k, 1) := by
  unfold value_counts
  rw [uniqueKeys_eq_self l h]
  have hmap : (l.map fun k => (k, l.count k)) = l.map fun k => (k, 1) := by
    refine List.map_congr_left ?_
    intro k hk
    rw [List.count_eq_one_of_mem h hk]
  rw [hmap]
  refine foldSort_eq_self _ _ ?_
  intro p hp q hq
  rcases List.mem_map.mp hp with ⟨kp, _, rfl⟩
  rcases List.mem_map.mp hq with ⟨kq, _, rfl⟩
  exact decide_eq_false (by omega)

/-! ### Claim C6: geolocation deduplication -/

theorem dropDupGo_filter (c : String) :
    ∀ (l : List Geo) (seen : List String),
      ((c ∈ seen → (dropDupGo l seen).filter (fun g => g.customer_unique_id == c) = []) ∧
       (c ∉ seen → (dropDupGo l seen).filter (fun g => g.customer_unique_id == c) =
          (l.filter (fun g => g.customer_unique_id == c)).take 1)) := by
  intro l
  induction l with
  | nil => intro seen; exact ⟨fun _ => rfl, fun _ => rfl⟩
  | cons g gs ih =>
    intro seen
    by_cases hseen : g.customer_unique_id ∈ seen
    · constructor
      · intro hc
        rw [dropDupGo, if_pos hseen]
        exact (ih seen).1 hc
      · intro hc
        rw [dropDupGo, if_pos hseen]
        have hgc : (g.customer_unique_id == c) = false := by
          rw [beq_eq_false_iff_ne]
          intro hEq
          exact hc (hEq ▸ hseen)
        rw [List.filter_cons_of_neg (by rw [hgc]; exact Bool.false_ne_true)]
        exact (ih seen).2 hc
    · constructor
      · intro hc
        rw [dropDupGo, if_neg hseen]
        have hgc : (g.customer_unique_id == c) = false := by
          rw [beq_eq_false_iff_ne]
          intro hEq
          exact hseen (hEq ▸ hc)
        rw [List.filter_cons_of_neg (by rw [hgc]; exact Bool.false_ne_true)]
        exact (ih (g.customer_unique_id :: seen)).1 (List.mem_cons_of_mem _ hc)
      · intro hc
        rw [dropDupGo, if_neg hseen]
        by_cases hgc : g.customer_unique_id = c
        · rw [List.filter_cons_of_pos (by simp [hgc]),
            List.filter_cons_of_pos (by simp [hgc])]
          have htail := (ih (g.customer_unique_id :: seen)).1 (by
            rw [hgc]; exact List.mem_cons_self _ _)
          rw [htail]
          simp
        · rw [List.filter_cons_of_neg (by simp [hgc]),
            List.filter_cons_of_neg (by simp [hgc])]
          exact (ih (g.customer_unique_id :: seen)).2 (by
            intro hmem
            rcases List.mem_cons.mp hmem with h | h
            · exact hgc h.symm
            · exact hc h)

/-- C6: for every customer id, the deduplicated geolocation table restricted to
that id is exactly the first matching record of the input (in input order); in
particular each id present in the input survives exactly once. -/
theorem drop_duplicates_keeps_first (l : List Geo) (c : String) :
    (drop_duplicates l).filter (fun g => g.customer_unique_id == c) =
      (l.filter (fun g => g.customer_unique_id == c)).take 1 := by
  exact (dropDupGo_filter c l []).2 (by simp)

/-! ### Claim C2: empty date range -/

/-- C2: on an empty filtered order set all five aggregate tables are empty, but
the dashboard rendering does NOT complete: line 146 calls `idxmax()` on an
empty series and lines 166/183 take `.index[0]` of an empty index, which raise
(`run_dashboard` is `none`), contradicting the claim. -/
theorem empty_filter_empty_tables_render_fails (all_df : List Order) (s e : Nat)
    (h : main_df all_df s e = []) :
    create_daily_orders_df (main_df all_df s e) = [] ∧
    create_sum_order_items_df (main_df all_df s e) = [] ∧
    (review_score_df (main_df all_df s e)).1 = [] ∧
    (create_bystate_df (main_df all_df s e)).1 = [] ∧
    (create_order_status (main_df all_df s e)).1 = [] ∧
    run_dashboard all_df s e = none := by
  refine ⟨?_, ?_, ?_, ?_, ?_, ?_⟩
  · rw [h]
    rfl
  · rw [h]
    rfl
  · rw [h]
    rfl
  · rw [h]
    rfl
  · rw [h]
    rfl
  · unfold run_dashboard
    rw [h]
    rfl

/-- Witness for C2: a dataset whose only order is approved on day 5, filtered
with start_date = end_date = day 1, yields an empty filtered set. -/
theorem empty_filter_empty_tables_render_fails_witness :
    create_daily_orders_df (main_df dfDayFive 1 1) = [] ∧
    create_sum_order_items_df (main_df dfDayFive 1 1) = [] ∧
    (review_score_df (main_df dfDayFive 1 1)).1 = [] ∧
    (create_bystate_df (main_df dfDayFive 1 1)).1 = [] ∧
    (create_order_status (main_df dfDayFive 1 1)).1 = [] ∧
    run_dashboard dfDayFive 1 1 = none :=
  empty_filter_empty_tables_render_fails dfDayFive 1 1 (by decide)

/-! ### Claim C3: the Avg. Review Score metric -/

/-- C3: on review scores [5, 5, 4] the code displays
`review_score.mean() = (2 + 1) / 2 = 3/2`, the mean of the frequency COUNTS of
the score distribution, while the arithmetic mean of the review scores is
`14/3`: the displayed metric is not the mean review score. -/
theorem avg_review_score_not_mean_of_scores :
    avg_review_score (review_score_df dfThreeScores).1 = some (3 / 2 : ℚ) ∧
    claimed_avg_review_score dfThreeScores = some (14 / 3 : ℚ) ∧
    (3 / 2 : ℚ) ≠ (14 / 3 : ℚ) := by
  refine ⟨?_, ?_, by norm_num⟩
  · show seriesMean [(5, 2), (4, 1)] = some (3 / 2 : ℚ)
    rw [seriesMean]
    norm_num
  · rw [claimed_avg_review_score]
    norm_num [dfThreeScores, mkOrder]

/-! ### Claim C4: the Most Common Review Score display -/

/-- C4: on review scores [5, 5, 5, 4] the frequency table is [(5, 3), (4, 1)]
and its mode (the analyzer's returned `common_score`) is 5, but line 146
recomputes `review_score.value_counts().idxmax()` over the COUNTS and displays
3 — a frequency count, not the modal review score. -/
theorem most_common_review_score_displays_count :
    most_common_review_score (review_score_df dfFourScores).1 = some 3 ∧
    (review_score_df dfFourScores).1 = [(5, 3), (4, 1)] ∧
    (review_score_df dfFourScores).2 = some 5 ∧
    (3 : Nat) ≠ 5 := by
  refine ⟨by decide, by decide, by decide, by decide⟩

/-! ### Claim C5: the Total Orders metric -/

theorem total_order_daily (df : List Order) :
    total_order (create_daily_orders_df df) = df.length := by
  unfold total_order create_daily_orders_df
  rw [List.map_map]
  have hcomp : ((fun r : DailyRow => r.order_count) ∘ fun d =>
      ({ date := d
         order_count := (df.map fun o => o.order_approved_at.day).count d
         revenue := ((df.filter fun o => o.order_approved_at.day == d).map
           fun o => o.price).sum } : DailyRow)) =
      fun d => (df.map fun o => o.order_approved_at.day).count d := rfl
  rw [hcomp]
  have hperm :=
    (foldSort_perm (fun a b : Nat => a < b)
        (uniqueKeys (df.map fun o => o.order_approved_at.day))).map
      fun d => (df.map fun o => o.order_approved_at.day).count d
  rw [hperm.sum_eq, sum_count_uniqueKeys, List.length_map]

/-- C5: the displayed Total Orders metric — the sum of the per-date order
counts of the daily-orders table — equals the number of order records in the
filtered range. -/
theorem total_orders_metric_counts_all_filtered (all_df : List Order) (s e : Nat) :
    total_order (create_daily_orders_df (main_df all_df s e)) =
      (main_df all_df s e).length :=
  total_order_daily (main_df all_df s e)

/-! ### Claim C7: determinism of the aggregation pipeline -/

/-- C7: the five aggregate tables are pure functions of the filtered order set:
any two runs whose date filters produce the same filtered set produce
identical aggregate tables. -/
theorem dashboard_tables_pure (a1 a2 : List Order) (s1 e1 s2 e2 : Nat)
    (h : main_df a1 s1 e1 = main_df a2 s2 e2) :
    dashboard_tables a1 s1 e1 = dashboard_tables a2 s2 e2 := by
  unfold dashboard_tables
  rw [h]

/-- Witness for C7: two different loaded datasets and date selections with the
same (empty) filtered set give identical aggregate tables. -/
theorem dashboard_tables_pure_witness :
    dashboard_tables [lateOrder] 1 1 = dashboard_tables [] 0 0 :=
  dashboard_tables_pure [lateOrder] [] 1 1 0 0 (by decide)

/-! ### Claim C8: the Most Common State display -/

/-- C8: on a non-empty order set the value displayed as Most Common State
(line 166) is a state code of the by-state frequency table whose customer
count is maximal in that table — the modal state. -/
theorem most_common_state_is_modal (df : List Order) (h : df ≠ []) :
    ∃ m c, most_common_state (create_bystate_df df).1 = some m ∧
      (m, c) ∈ (create_bystate_df df).1 ∧
      ∀ p ∈ (create_bystate_df df).1, p.2 ≤ c := by
  have hstates : df.map (fun o => o.customer_state) ≠ [] := by
    cases df with
    | nil => exact absurd rfl h
    | cons o os => simp
  have huk := uniqueKeys_ne_nil _ hstates
  have hlen : (value_counts (df.map fun o => o.customer_state)).length =
      (uniqueKeys (df.map fun o => o.customer_state)).length := by
    rw [(value_counts_perm _).length_eq, List.length_map]
  have htne : value_counts (df.map fun o => o.customer_state) ≠ [] := by
    intro hnil
    rw [hnil] at hlen
    exact huk (List.length_eq_zero.mp hlen.symm)
  obtain ⟨r, rest, hr⟩ := List.exists_cons_of_ne_nil htne
  have hpermcol :
      ((value_counts (df.map fun o => o.customer_state)).map Prod.fst).Perm
        (uniqueKeys (df.map fun o => o.customer_state)) := by
    have hp := (value_counts_perm (df.map fun o => o.customer_state)).map Prod.fst
    rw [List.map_map] at hp
    have hid : ((uniqueKeys (df.map fun o => o.customer_state)).map
        (Prod.fst ∘ fun k => (k, (df.map fun o => o.customer_state).count k))) =
        uniqueKeys (df.map fun o => o.customer_state) := List.map_id _
    rw [hid] at hp
    exact hp
  have hcolnodup :
      ((value_counts (df.map fun o => o.customer_state)).map Prod.fst).Nodup :=
    hpermcol.nodup_iff.mpr (nodup_uniqueKeys _)
  have hdisp : most_common_state (value_counts (df.map fun o => o.customer_state)) =
      some r.1 := by
    unfold most_common_state
    rw [value_counts_of_nodup _ hcolnodup, List.map_map]
    have hmapid : (List.map (Prod.fst ∘ fun k : String => (k, 1))
        ((value_counts (df.map fun o => o.customer_state)).map Prod.fst)) =
        (value_counts (df.map fun o => o.customer_state)).map Prod.fst :=
      List.map_id _
    rw [hmapid, hr]
    rfl
  have hsorted := value_counts_sorted (df.map fun o => o.customer_state)
  rw [hr] at hsorted
  rcases List.pairwise_cons.mp hsorted with ⟨hbound, _⟩
  refine ⟨r.1, r.2, hdisp, ?_, ?_⟩
  · show (r.1, r.2) ∈ value_counts (df.map fun o => o.customer_state)
    rw [hr, Prod.mk.eta]
    exact List.mem_cons_self r rest
  · intro p hp
    have hp2 : p ∈ value_counts (df.map fun o => o.customer_state) := hp
    rw [hr] at hp2
    rcases List.mem_cons.mp hp2 with rfl | hp3
    · exact le_refl _
    · exact hbound p hp3

/-- Witness for C8 at a concrete one-order dataset filtered over its own day. -/
theorem most_common_state_is_modal_witness :
    ∃ m c, most_common_state (create_bystate_df (main_df dfDayFive 5 5)).1 = some m ∧
      (m, c) ∈ (create_bystate_df (main_df dfDayFive 5 5)).1 ∧
      ∀ p ∈ (create_bystate_df (main_df dfDayFive 5 5)).1, p.2 ≤ c :=
  most_common_state_is_modal (main_df dfDayFive 5 5) (by decide)

/-! ### Claim C9: daily-orders dates strictly increasing -/

theorem daily_orders_dates_aux (df : List Order) :
    ((create_daily_orders_df df).map fun r => r.date).Pairwise (· < ·) := by
  unfold create_daily_orders_df
  rw [List.map_map]
  have hsorted : (foldSort (fun a b : Nat => a < b)
      (uniqueKeys (df.map fun o => o.order_approved_at.day))).Pairwise (· ≤ ·) := by
    refine foldSort_pairwise _ _ ?_ ?_ ?_ _
    · intro a b c h1 h2
      omega
    · intro a b hab
      have := of_decide_eq_true hab
      omega
    · intro a b hab
      have := of_decide_eq_false hab
      omega
  have hnodup : (foldSort (fun a b : Nat => a < b)
      (uniqueKeys (df.map fun o => o.order_approved_at.day))).Nodup :=
    (foldSort_perm _ _).nodup_iff.mpr (nodup_uniqueKeys _)
  have hne : (foldSort (fun a b : Nat => a < b)
      (uniqueKeys (df.map fun o => o.order_approved_at.day))).Pairwise (· ≠ ·) := hnodup
  have hlt := (hsorted.and hne).imp fun hab => lt_of_le_of_ne hab.1 hab.2
  exact hlt.map _ fun a b hab => hab

/-- C9: the dates of the daily-orders table of the filtered order set form a
strictly increasing sequence (hence contain no duplicate date). -/
theorem daily_orders_dates_strictly_increasing (all_df : List Order) (s e : Nat) :
    ((create_daily_orders_df (main_df all_df s e)).map fun r => r.date).Pairwise
      (· < ·) :=
  daily_orders_dates_aux (main_df all_df s e)

/-! ### Claim C10: the Avg. Items per Order metric -/

/-- C10: the displayed Avg. Items per Order metric is the mean of the
per-category counts: the sum of the per-category item counts (which equals the
number of item records) divided by the number of distinct product categories —
a per-category average, not items divided by orders. -/
theorem avg_items_is_per_category_average (df : List Order) (h : df ≠ []) :
    avg_items (create_sum_order_items_df df) =
      some ((((create_sum_order_items_df df).map Prod.snd).sum : ℚ) /
        ((create_sum_order_items_df df).length : ℚ)) ∧
    ((create_sum_order_items_df df).map Prod.snd).sum = df.length ∧
    (create_sum_order_items_df df).length =
      (uniqueKeys (df.map fun o => o.product_category)).length := by
  have hcats : df.map (fun o => o.product_category) ≠ [] := by
    cases df with
    | nil => exact absurd rfl h
    | cons o os => simp
  have huk := uniqueKeys_ne_nil _ hcats
  have hpermsnd :
      ((value_counts (df.map fun o => o.product_category)).map Prod.snd).Perm
        ((uniqueKeys (df.map fun o => o.product_category)).map
          fun k => (df.map fun o => o.product_category).count k) := by
    have hp := (value_counts_perm (df.map fun o => o.product_category)).map Prod.snd
    rw [List.map_map] at hp
    exact hp
  have hsum : ((create_sum_order_items_df df).map Prod.snd).sum = df.length := by
    show ((value_counts (df.map fun o => o.product_category)).map Prod.snd).sum =
      df.length
    rw [hpermsnd.sum_eq, sum_count_uniqueKeys, List.length_map]
  have hlen : (create_sum_order_items_df df).length =
      (uniqueKeys (df.map fun o => o.product_category)).length := by
    show (value_counts (df.map fun o => o.product_category)).length = _
    rw [(value_counts_perm _).length_eq, List.length_map]
  have hlenne : (create_sum_order_items_df df).length ≠ 0 := by
    rw [hlen]
    intro h0
    exact huk (List.length_eq_zero.mp h0)
  refine ⟨?_, hsum, hlen⟩
  unfold avg_items seriesMean
  rw [if_neg hlenne]
  congr 1
  rw [Nat.cast_list_sum, List.map_map]
  rfl

/-- Witness for C10 at the concrete three-order dataset. -/
theorem avg_items_is_per_category_average_witness :
    avg_items (create_sum_order_items_df dfThreeScores) =
      some ((((create_sum_order_items_df dfThreeScores).map Prod.snd).sum : ℚ) /
        ((create_sum_order_items_df dfThreeScores).length : ℚ)) ∧
    ((create_sum_order_items_df dfThreeScores).map Prod.snd).sum =
      dfThreeScores.length ∧
    (create_sum_order_items_df dfThreeScores).length =
      (uniqueKeys (dfThreeScores.map fun o => o.product_category)).length :=
  avg_items_is_per_category_average dfThreeScores (by decide)

end EcommDash
